import Mathlib

/-!
Shallow embedding of the twitch-companion pipeline
(`twitchcompanion/main.py`, `twitchcompanion/worker/transcriber.py`,
`twitchcompanion/worker/live.py`), restricted to the parts the spec's
claims are about: transcript-line construction, the `should_respond`
decision, `get_latest_transcription`, the live-mode bounded buffer
queue and sliding window, the scanner loop's seen-set discipline and
eligibility test, `remove_file`, and the model-worker loop.

Wall-clock times are rationals; file paths are strings; audio chunks
and samples are abstract elements of a type variable; the filesystem
is the list of file paths currently on disk.
-/

namespace TwitchCompanion

/-! ## Transcript line construction

`transcriber.py` line 159: the batch-mode model worker appends
`f"{ctime} {result['text']}\n"` to the transcript file.
`live.py` lines 147-149: the live-mode loop appends `f"{text}\n"`,
and only when `text.strip()` is truthy. The transcript file is
modelled as the list of its lines (without trailing newlines). -/

/-- `transcriber.py:155-159`: the batch worker takes `ctime = time.ctime()`
and appends the single line `f"{ctime} {result['text']}"`. -/
def batchWorkerAppend (transcript : List String) (ctime text : String) : List String :=
  transcript ++ [ctime ++ " " ++ text]

/-- Python `str.strip()`: remove leading and trailing whitespace,
modelled on the string's character list. -/
def pyStrip (s : String) : String :=
  String.mk (((s.data.dropWhile Char.isWhitespace).reverse.dropWhile Char.isWhitespace).reverse)

/-- `live.py:147-149`: the live loop appends the line `f"{text}"` when
`text.strip()` is non-empty, and writes nothing otherwise. -/
def liveLoopAppend (transcript : List String) (text : String) : List String :=
  if pyStrip text ≠ "" then transcript ++ [text] else transcript

/-- A ctime-style timestamp, as produced by Python `time.ctime()`:
a fixed-width 24-character string such as `Sun Jun 20 23:21:05 1993`. -/
def IsCtimeStamp (s : String) : Prop := s.length = 24

/-! ## `TwitchWatcher.should_respond` (`main.py:107-114`)

State read by the method: `response_interval` (an `Option`, the code
guards `is not None`), `last_response`, the current time,
`on_work_response` (set in `__init__` to `words_file is not None`,
`main.py:40`) and `word_flagged`. -/

/-- `main.py:40`: `self.on_work_response = words_file is not None`. -/
def onWorkResponse (wordsFile : Option String) : Bool :=
  wordsFile.isSome

/-- `main.py:107-114`:
```
if self.response_interval is not None:
    if self.last_response + self.response_interval < time.time():
        return True
if self.on_work_response and self.word_flagged:
    return True
return False
``` -/
def shouldRespond (responseInterval : Option ℚ) (lastResponse now : ℚ)
    (onWork wordFlagged : Bool) : Bool :=
  (match responseInterval with
   | some ri => decide (lastResponse + ri < now)
   | none => false)
  || (onWork && wordFlagged)

/-! ## `LiveWhisperTranscriber.get_latest_transcription` (`live.py:113-129`)

The transcript file is `Option (List String)`: `none` when the file
does not exist (the `FileNotFoundError` branch), `some lines`
otherwise. Python's `lines[-n:]` slice and the three comprehensions
are embedded one for one. -/

/-- Python `lines[-n:]`: for `n = 0` this is `lines[0:]`, the whole
list; for `n > 0` it is the last `min n len` elements. -/
def pySliceLast (n : Nat) (l : List String) : List String :=
  if n = 0 then l else l.drop (l.length - n)

/-- `live.py:125`: `line.split("  ")[-1]` — the trailing segment after
the last run of two spaces (the whole line when there is none). -/
def extractText (line : String) : String :=
  (line.splitOn "  ").getLastD ""

/-- `live.py:124-125`: strip each line, keep the truthy (non-empty)
ones, then take each line's trailing double-space segment. -/
def processLines (l : List String) : List String :=
  (((l.map pyStrip).filter (fun s => s ≠ "")).map extractText)

/-- A Python value that is either a string or a list of strings:
`get_latest_transcription` returns `""` on the empty/missing paths and
a list of strings otherwise. -/
inductive PyValue where
  | str (s : String)
  | strList (l : List String)
deriving DecidableEq

/-- `live.py:113-129`: read the file (`none` raises
`FileNotFoundError`, caught, returning `""`); if `not lines` return
`""`; else slice `lines[-n:]` and process. -/
def getLatestTranscription (file : Option (List String)) (n : Nat) : PyValue :=
  match file with
  | none => .str ""
  | some lines =>
    if lines.isEmpty then .str ""
    else .strList (processLines (pySliceLast n lines))

/-! ## Live-mode bounded buffer queue (`live.py:20-24, 61-73`)

`TwitchStreamAudio.__init__` creates `queue.Queue(maxsize=10)`.
`_reader_loop` does `put_nowait(data)`; on `queue.Full` it does
`get_nowait()` (drop oldest) and then `put_nowait(data)`. With the
single reader task and no concurrent consumer this is a pure
function on the queue contents (oldest first). -/

/-- `live.py:22`: `queue.Queue(maxsize=10)`. -/
def bufferQueueMax : Nat := 10

/-- One push by `_reader_loop` (`live.py:69-73`): `put_nowait` succeeds
when the queue is below capacity; on `queue.Full` the oldest element is
removed (`get_nowait`) and the new one appended. -/
def queuePush (maxsize : Nat) (q : List β) (x : β) : List β :=
  if q.length < maxsize then q ++ [x] else q.drop 1 ++ [x]

/-- A sequence of pushes, oldest first. -/
def queuePushAll (maxsize : Nat) (q : List β) (xs : List β) : List β :=
  xs.foldl (queuePush maxsize) q

/-! ## Live-mode sliding window (`live.py:97-107, 139-142`)

`__init__` sets `self.buffer = np.zeros(window_sec * sample_rate)`.
Each cycle does `np.roll(self.buffer, -len(new_audio))` followed by
`self.buffer[-len(new_audio):] = new_audio`. -/

/-- `live.py:105`: the initial window buffer,
`np.zeros(self.window_sec * self.sample_rate)`. -/
def liveInitBuffer (windowSec sampleRate : Nat) : List ℚ :=
  List.replicate (windowSec * sampleRate) 0

/-- `np.roll(a, -k)`: rotate left by `k` modulo the length. -/
def rollLeft (l : List α) (k : Nat) : List α :=
  l.drop (k % l.length) ++ l.take (k % l.length)

/-- `a[-k:] = new` for `k = len(new) ≥ 1`: overwrite the last
`len(new)` elements. -/
def setSuffix (l new : List α) : List α :=
  l.take (l.length - new.length) ++ new

/-- `live.py:141-142`: one sliding-window update,
`buffer = np.roll(buffer, -len(new)); buffer[-len(new):] = new`. -/
def slidingUpdate (buf new : List α) : List α :=
  setSuffix (rollLeft buf new.length) new

/-! ## `remove_file` (`transcriber.py:107-115`)

```
if self.do_remove:
    for _ in range(10):
        try:
            os.remove(path)
            break
        except PermissionError:
            time.sleep(0.5)
```
The outcome of the `i`-th `os.remove` call is an oracle
`att : Nat → Bool` (`true` = success, `false` = `PermissionError`,
which is caught and retried after the sleep). The function returns
whether the file was removed; it is total, so no exception escapes
on this oracle. -/

/-- The retry loop of `remove_file`: try `os.remove` up to `fuel`
times starting at attempt index `i`; `break` on the first success. -/
def removeAttempts (att : Nat → Bool) : Nat → Nat → Bool
  | _, 0 => false
  | i, fuel + 1 => if att i then true else removeAttempts att (i + 1) fuel

/-- `remove_file`: a no-op unless `do_remove`; otherwise at most 10
attempts. Returns whether the file was actually removed. -/
def removeFile (doRemove : Bool) (att : Nat → Bool) : Bool :=
  if doRemove then removeAttempts att 0 10 else false

/-- Effect of one `remove_file` call on the filesystem. -/
def removeFileFS (doRemove : Bool) (att : Nat → Bool) (fs : List String) (p : String) :
    List String :=
  if removeFile doRemove att then fs.erase p else fs

/-! ## Scanner loop (`transcriber.py:117-132`)

```
seen = set()
while self.running:
    for wav_file in self.audio_dir.glob("*.wav"):
        created_time = get_create_time(wav_file)
        if wav_file not in seen and created_time + (self.segment_time + 2) < time.time():
            if has_speech(wav_file):
                self.file_queue.put(wav_file)
            else:
                self.remove_file(wav_file)
            seen.add(wav_file)
    time.sleep(1)
```
A trace is a list of observations (file, its creation time, the
`time.time()` at the check), folded over the state
(seen-set, file queue, filesystem). -/

/-- `transcriber.py:124`: the grace added to `segment_time` in the
eligibility test is the literal `2` seconds. -/
def grace : ℚ := 2

/-- `transcriber.py:22-28`: `has_speech` returns `True` on its first
line; the VAD code below it is unreachable. -/
def hasSpeech (_wavPath : String) : Bool := true

/-- State carried by the scanner across poll cycles. -/
structure ScanState where
  seen : List String
  queue : List String
  fs : List String
deriving DecidableEq

/-- One observation of one file during one poll cycle. -/
structure FileObs where
  file : String
  ctime : ℚ
  now : ℚ

/-- One iteration of the scanner's inner `for` body
(`transcriber.py:122-131`), parameterised by the speech screen
(`has_speech` in the source) and the deletion oracle. -/
def scanFile (segmentTime : ℚ) (doRemove : Bool) (speech : String → Bool)
    (att : Nat → Bool) (st : ScanState) (o : FileObs) : ScanState :=
  if o.file ∉ st.seen ∧ o.ctime + (segmentTime + grace) < o.now then
    if speech o.file then
      { st with queue := st.queue ++ [o.file], seen := st.seen ++ [o.file] }
    else
      { st with fs := removeFileFS doRemove att st.fs o.file, seen := st.seen ++ [o.file] }
  else st

/-- A scanner trace: fold the per-file body over a sequence of
observations. -/
def scanTrace (segmentTime : ℚ) (doRemove : Bool) (speech : String → Bool)
    (att : Nat → Bool) (st : ScanState) (obs : List FileObs) : ScanState :=
  obs.foldl (scanFile segmentTime doRemove speech att) st

/-! ## Model worker loop (`transcriber.py:144-164`)

For each item pulled from the queue the worker runs, inside one
`try`: `getsize`/`transcribe` (recognition), the transcript append,
`task_done`, and `remove_file`; `except Exception` logs and falls
through to the next loop iteration. The per-item outcome is an
oracle: where (if anywhere) that item's processing raises. -/

/-- Where processing of one work item raises, if anywhere.
`recogFail`: exception during `getsize`/`transcribe`, nothing written;
`appendFail`: recognition succeeded, the transcript write raised;
`deleteFail`: the line was written, then `remove_file` raised;
`ok`: no exception. -/
inductive ItemOutcome where
  | recogFail (msg : String)
  | appendFail (text : String)
  | deleteFail (text : String)
  | ok (text : String)
deriving DecidableEq

/-- State touched by the model worker. -/
structure WorkerState where
  transcript : List String
  fs : List String
deriving DecidableEq

/-- One iteration of `_model_worker`'s `try` body
(`transcriber.py:151-164`): any exception is caught and logged, the
loop continues. -/
def workerStep (doRemove : Bool) (att : Nat → Bool) (outcome : String → ItemOutcome)
    (ctime : String → String) (st : WorkerState) (wav : String) : WorkerState :=
  match outcome wav with
  | .recogFail _ => st
  | .appendFail _ => st
  | .deleteFail text =>
    { st with transcript := batchWorkerAppend st.transcript (ctime wav) text }
  | .ok text =>
    { transcript := batchWorkerAppend st.transcript (ctime wav) text
      fs := removeFileFS doRemove att st.fs wav }

/-- The worker processes its queue of items in order; being a total
fold, no item's exception can terminate it. -/
def runWorker (doRemove : Bool) (att : Nat → Bool) (outcome : String → ItemOutcome)
    (ctime : String → String) (st : WorkerState) (items : List String) : WorkerState :=
  items.foldl (workerStep doRemove att outcome ctime) st

/-- The transcript line produced for one work item, when one is
produced: the line is written exactly when recognition and the append
both succeed (`ok` or `deleteFail`). -/
def itemLine (outcome : String → ItemOutcome) (ctime : String → String)
    (wav : String) : Option String :=
  match outcome wav with
  | .recogFail _ => none
  | .appendFail _ => none
  | .deleteFail text => some (ctime wav ++ " " ++ text)
  | .ok text => some (ctime wav ++ " " ++ text)

/-! ## `TwitchTranscriber.__init__` (`transcriber.py:77-93`)

Only the fields the claims depend on are carried: `running` is set
to `True`, `do_remove` is hard-coded `False`, `segment_time` is
stored, the file queue starts empty. -/

/-- The constructor state of `TwitchTranscriber` relevant to the
claims. -/
structure TranscriberState where
  audioDir : String
  running : Bool
  doRemove : Bool
  segmentTime : ℚ
  fileQueue : List String
deriving DecidableEq

/-- `transcriber.py:77-93`: `self.running = True`,
`self.do_remove = False`, `self.segment_time = segment_time`, empty
queue. -/
def transcriberInit (audioDir : String) (segmentTime : ℚ) : TranscriberState :=
  { audioDir := audioDir
    running := true
    doRemove := false
    segmentTime := segmentTime
    fileQueue := [] }

/-!
## Theorems
-/

/-- C1, as stated, fails on the live-mode path: `live.py:149` writes
`f"{text}\n"` with no timestamp. For recognized text `"hello"` the
appended line is `"hello"`, which does not decompose as a 24-character
ctime-style timestamp, a space, and a trailing segment. -/
theorem live_line_has_no_timestamp :
    liveLoopAppend [] "hello" = ["hello"] ∧
    ¬ ∃ ts rest, IsCtimeStamp ts ∧ "hello" = ts ++ " " ++ rest := by
  refine ⟨by decide, ?_⟩
  rintro ⟨ts, rest, hts, heq⟩
  have hlen := congrArg String.length heq
  rw [String.length_append, String.length_append] at hlen
  have h24 : ts.length = 24 := hts
  have h5 : "hello".length = 5 := rfl
  have h1 : " ".length = 1 := rfl
  omega

/-- C1 amended: a line appended by the batch-mode worker
(`transcriber.py:159`) has the form `<ctime> <text>`; the live-mode
loop (`live.py:147-149`) appends the recognized text alone, with no
timestamp, and only when the stripped text is non-empty. -/
theorem transcript_line_format (transcript : List String) (ctime text : String) :
    batchWorkerAppend transcript ctime text = transcript ++ [ctime ++ " " ++ text] ∧
    (pyStrip text ≠ "" → liveLoopAppend transcript text = transcript ++ [text]) ∧
    (pyStrip text = "" → liveLoopAppend transcript text = transcript) := by
  refine ⟨rfl, fun h => ?_, fun h => ?_⟩
  · simp [liveLoopAppend, h]
  · simp [liveLoopAppend, h]

/-- Witness for `transcript_line_format` at concrete inputs. -/
theorem transcript_line_format_witness :
    liveLoopAppend ["a"] "hi" = ["a", "hi"] ∧ liveLoopAppend ["a"] " " = ["a"] :=
  ⟨(transcript_line_format ["a"] "x" "hi").2.1 (by decide),
   (transcript_line_format ["a"] "x" " ").2.2 (by decide)⟩

/-- C2: `should_respond` (`main.py:107-114`) returns `True` exactly
when the interval is configured and `now - last_response` strictly
exceeds it, or keyword triggering is on and the word flag is set; in
particular it returns `False` at the exact boundary
`now = last_response + response_interval` when no word is flagged. -/
theorem shouldRespond_spec :
    (∀ (ri : Option ℚ) (last now : ℚ) (ow wf : Bool),
      (shouldRespond ri last now ow wf = true ↔
        ((∃ r, ri = some r ∧ r < now - last) ∨ (ow = true ∧ wf = true)))) ∧
    (∀ (r last : ℚ) (ow : Bool),
      shouldRespond (some r) last (last + r) ow false = false) := by
  constructor
  · intro ri last now ow wf
    cases ri with
    | none => simp [shouldRespond]
    | some r =>
      simp only [shouldRespond, Bool.or_eq_true, decide_eq_true_eq, Bool.and_eq_true,
        Option.some.injEq]
      constructor
      · rintro (h | h)
        · exact Or.inl ⟨r, rfl, by linarith⟩
        · exact Or.inr h
      · rintro (⟨r', hr', h⟩ | h)
        · cases hr'; exact Or.inl (by linarith)
        · exact Or.inr h
  · intro r last ow
    simp [shouldRespond]

/-- Witness for `shouldRespond_spec`: fires strictly past the
interval, does not fire at the exact boundary. -/
theorem shouldRespond_spec_witness :
    shouldRespond (some 60) 0 100 false false = true ∧
    shouldRespond (some 60) 0 (0 + 60) false false = false :=
  ⟨(shouldRespond_spec.1 (some 60) 0 100 false false).2
      (Or.inl ⟨60, rfl, by norm_num⟩),
   shouldRespond_spec.2 60 0 false⟩

/-- C3: `get_latest_transcription` (`live.py:113-129`) returns a
benign empty string on a missing file (the caught
`FileNotFoundError`) and on an empty file; with `n = 0` or with fewer
than `n` lines it processes all lines; in general it processes
exactly the `lines[-n:]` slice, which for `n > 0` is the suffix of
length `min n len`. -/
theorem getLatestTranscription_spec :
    (∀ n, getLatestTranscription none n = .str "") ∧
    (∀ n, getLatestTranscription (some []) n = .str "") ∧
    (∀ ls, ls ≠ [] →
      getLatestTranscription (some ls) 0 = .strList (processLines ls)) ∧
    (∀ ls n, ls ≠ [] → ls.length ≤ n →
      getLatestTranscription (some ls) n = .strList (processLines ls)) ∧
    (∀ ls n, ls ≠ [] →
      getLatestTranscription (some ls) n = .strList (processLines (pySliceLast n ls))) ∧
    (∀ ls n, 0 < n →
      pySliceLast n ls = ls.drop (ls.length - n) ∧
      (pySliceLast n ls).length = min n ls.length) := by
  refine ⟨fun n => rfl, fun n => rfl, ?_, ?_, ?_, ?_⟩
  · intro ls h
    simp [getLatestTranscription, h, pySliceLast]
  · intro ls n h hn
    have hslice : pySliceLast n ls = ls := by
      unfold pySliceLast
      split
      · rfl
      · rw [Nat.sub_eq_zero_of_le hn, List.drop_zero]
    simp [getLatestTranscription, h, hslice]
  · intro ls n h
    simp [getLatestTranscription, h]
  · intro ls n hn
    have hne : n ≠ 0 := Nat.pos_iff_ne_zero.mp hn
    refine ⟨by simp [pySliceLast, hne], ?_⟩
    simp [pySliceLast, hne, List.length_drop]
    omega

/-- Witness for `getLatestTranscription_spec`: a two-line file read
with `n = 5` and with `n = 0` yields all lines, processed. -/
theorem getLatestTranscription_spec_witness :
    getLatestTranscription (some ["a", "b"]) 5 = .strList (processLines ["a", "b"]) ∧
    getLatestTranscription (some ["a", "b"]) 0 = .strList (processLines ["a", "b"]) :=
  ⟨getLatestTranscription_spec.2.2.2.1 ["a", "b"] 5 (by decide) (by decide),
   getLatestTranscription_spec.2.2.1 ["a", "b"] (by decide)⟩

/-- One push keeps the queue at its capacity bound. -/
theorem queuePush_length (m : Nat) (q : List β) (x : β) (hm : 0 < m) (h : q.length ≤ m) :
    (queuePush m q x).length = min m (q.length + 1) := by
  unfold queuePush
  split
  · simp; omega
  · have hq : q.length = m := by omega
    simp [List.length_drop]
    omega

/-- One push is the tail slice of the queue with the new element
appended. -/
theorem queuePush_eq_drop (m : Nat) (q : List β) (x : β) (hm : 0 < m) (h : q.length ≤ m) :
    queuePush m q x = (q ++ [x]).drop (q.length + 1 - m) := by
  unfold queuePush
  split
  · have : q.length + 1 - m = 0 := by omega
    rw [this, List.drop_zero]
  · have hq : q.length = m := by omega
    have h1 : 1 ≤ q.length := by omega
    rw [hq, Nat.add_sub_cancel_left, List.drop_append_of_le_length h1]

/-- Folding a sequence of pushes keeps exactly the last `m` elements
of everything pushed so far. -/
theorem queuePushAll_eq_drop (m : Nat) (xs : List β) :
    ∀ q : List β, 0 < m → q.length ≤ m →
      queuePushAll m q xs = (q ++ xs).drop (q.length + xs.length - m) := by
  induction xs with
  | nil =>
    intro q hm h
    simp [queuePushAll, Nat.sub_eq_zero_of_le h]
  | cons x xs ih =>
    intro q hm h
    have hstep : queuePushAll m q (x :: xs) = queuePushAll m (queuePush m q x) xs := rfl
    have hlen := queuePush_length m q x hm h
    have hle : (queuePush m q x).length ≤ m := by rw [hlen]; omega
    rw [hstep, ih (queuePush m q x) hm hle, queuePush_eq_drop m q x hm h]
    have ha : q.length + 1 - m ≤ (q ++ [x]).length := by simp
    rw [← List.drop_append_of_le_length ha, List.drop_drop, List.append_assoc,
      List.singleton_append]
    congr 1
    rw [List.length_drop, List.length_append, List.length_singleton, List.length_cons]
    omega

/-- C4: pushing more than 10 chunks through the live-mode buffer
queue (`live.py:22`, `live.py:69-73`) leaves exactly the 10 most
recently pushed chunks, in arrival order. -/
theorem bufferQueue_keeps_last_ten (xs : List β) (h : 10 < xs.length) :
    queuePushAll bufferQueueMax [] xs = xs.drop (xs.length - 10) ∧
    (queuePushAll bufferQueueMax [] xs).length = 10 := by
  have heq := queuePushAll_eq_drop 10 xs [] (by norm_num) (by simp)
  simp only [List.nil_append, List.length_nil, Nat.zero_add] at heq
  have h1 : queuePushAll bufferQueueMax [] xs = xs.drop (xs.length - 10) := heq
  refine ⟨h1, ?_⟩
  rw [h1, List.length_drop]
  omega

/-- Witness for `bufferQueue_keeps_last_ten` on 11 concrete pushes. -/
theorem bufferQueue_keeps_last_ten_witness :
    queuePushAll bufferQueueMax [] [0, 1, 2, 3, 4, 5, 6, 7, 8, 9, 10] =
      [1, 2, 3, 4, 5, 6, 7, 8, 9, 10] :=
  (bufferQueue_keeps_last_ten (β := Nat) [0, 1, 2, 3, 4, 5, 6, 7, 8, 9, 10]
    (by decide)).1.trans (by decide)

/-- C5: one live-mode sliding-window update (`live.py:141-142`) with
non-empty new audio no longer than the window keeps the buffer length
unchanged, dropping the oldest `len(new)` samples from the head and
appending the new ones at the tail; the initial buffer
(`live.py:105`) has length `window_sec * sample_rate`. -/
theorem slidingWindow_invariant (w r : Nat) (buf new : List α)
    (_h1 : 0 < new.length) (h2 : new.length ≤ buf.length) :
    slidingUpdate buf new = buf.drop new.length ++ new ∧
    (slidingUpdate buf new).length = buf.length ∧
    (liveInitBuffer w r).length = w * r := by
  have hmain : slidingUpdate buf new = buf.drop new.length ++ new := by
    unfold slidingUpdate rollLeft setSuffix
    rcases Nat.lt_or_ge new.length buf.length with hlt | hge
    · rw [Nat.mod_eq_of_lt hlt]
      have hdl : (buf.drop new.length).length = buf.length - new.length :=
        List.length_drop new.length buf
      rw [List.length_append, hdl, List.length_take]
      have htake : min new.length buf.length = new.length := by omega
      rw [htake]
      have hamount : buf.length - new.length + new.length - new.length
          = (buf.drop new.length).length := by rw [hdl]; omega
      rw [hamount, List.take_left]
    · have heq : new.length = buf.length := by omega
      rw [heq, Nat.mod_self, List.drop_zero, List.take_zero, List.append_nil,
        List.drop_length]
      simp
  refine ⟨hmain, ?_, by simp [liveInitBuffer]⟩
  rw [hmain, List.length_append, List.length_drop]
  omega

/-- Witness for `slidingWindow_invariant` on a 4-sample buffer and a
2-sample step. -/
theorem slidingWindow_invariant_witness :
    slidingUpdate [(1 : ℚ), 2, 3, 4] [5, 6] = [3, 4, 5, 6] :=
  ((slidingWindow_invariant 2 2 [(1 : ℚ), 2, 3, 4] [5, 6]
    (by decide) (by decide)).1).trans (by norm_num)

/-- The scanner invariant: no file occurs twice in the queue, and
every queued file is in the seen-set. -/
def ScanInv (st : ScanState) : Prop :=
  (∀ f, st.queue.count f ≤ 1) ∧ (∀ f, f ∈ st.queue → f ∈ st.seen)

/-- One scanner iteration preserves the scanner invariant. -/
theorem scanFile_inv (seg : ℚ) (dr : Bool) (sp : String → Bool) (att : Nat → Bool)
    (st : ScanState) (o : FileObs) (h : ScanInv st) :
    ScanInv (scanFile seg dr sp att st o) := by
  unfold scanFile
  split
  case isTrue hc =>
    obtain ⟨hns, _⟩ := hc
    split
    · constructor
      · intro f
        rw [List.count_append, List.count_singleton']
        split
        case isTrue hf =>
          have hzero : st.queue.count f = 0 := by
            rw [List.count_eq_zero]
            intro hmem
            exact hns (hf ▸ h.2 f hmem)
          omega
        case isFalse _ => have := h.1 f; omega
      · intro f hf
        rcases List.mem_append.mp hf with hold | hnew
        · exact List.mem_append.mpr (Or.inl (h.2 f hold))
        · exact List.mem_append.mpr (Or.inr hnew)
    · refine ⟨h.1, fun f hf => ?_⟩
      exact List.mem_append.mpr (Or.inl (h.2 f hf))
  case isFalse => exact h

/-- A whole scanner trace preserves the scanner invariant. -/
theorem scanTrace_inv (seg : ℚ) (dr : Bool) (sp : String → Bool) (att : Nat → Bool)
    (obs : List FileObs) :
    ∀ st : ScanState, ScanInv st → ScanInv (scanTrace seg dr sp att st obs) := by
  induction obs with
  | nil => exact fun st h => h
  | cons o obs ih =>
    intro st h
    exact ih (scanFile seg dr sp att st o) (scanFile_inv seg dr sp att st o h)

/-- C6: across every scanner trace started from the empty seen-set
(`transcriber.py:117-132`) a file is enqueued at most once; an
evaluated file (guard passed, either speech branch) lands in the
seen-set in that same cycle; and a file already in the seen-set
leaves the scanner state untouched, so it is never evaluated again. -/
theorem scanner_evaluates_once (seg : ℚ) (dr : Bool) (sp : String → Bool)
    (att : Nat → Bool) :
    (∀ (obs : List FileObs) (fs0 : List String) (f : String),
      (scanTrace seg dr sp att ⟨[], [], fs0⟩ obs).queue.count f ≤ 1) ∧
    (∀ (st : ScanState) (o : FileObs), o.file ∉ st.seen →
      o.ctime + (seg + grace) < o.now →
      o.file ∈ (scanFile seg dr sp att st o).seen) ∧
    (∀ (st : ScanState) (o : FileObs), o.file ∈ st.seen →
      scanFile seg dr sp att st o = st) := by
  refine ⟨?_, ?_, ?_⟩
  · intro obs fs0 f
    have hinit : ScanInv ⟨[], [], fs0⟩ := ⟨fun f => by simp, fun f hf => by simp at hf⟩
    exact (scanTrace_inv seg dr sp att obs ⟨[], [], fs0⟩ hinit).1 f
  · intro st o hns hold
    unfold scanFile
    rw [if_pos ⟨hns, hold⟩]
    split
    · exact List.mem_append.mpr (Or.inr (by simp))
    · exact List.mem_append.mpr (Or.inr (by simp))
  · intro st o hmem
    unfold scanFile
    rw [if_neg]
    rintro ⟨hns, _⟩
    exact hns hmem

/-- Witness for `scanner_evaluates_once`: a fresh, old-enough file is
put in the seen-set; a seen file leaves the state unchanged. -/
theorem scanner_evaluates_once_witness :
    "a.wav" ∈ (scanFile 10 false hasSpeech (fun _ => false)
      ⟨[], [], []⟩ ⟨"a.wav", 0, 20⟩).seen ∧
    scanFile 10 false hasSpeech (fun _ => false)
      ⟨["a.wav"], [], []⟩ ⟨"a.wav", 0, 20⟩ = ⟨["a.wav"], [], []⟩ :=
  ⟨(scanner_evaluates_once 10 false hasSpeech (fun _ => false)).2.1
      ⟨[], [], []⟩ ⟨"a.wav", 0, 20⟩ (by simp) (by norm_num [grace]),
   (scanner_evaluates_once 10 false hasSpeech (fun _ => false)).2.2
      ⟨["a.wav"], [], []⟩ ⟨"a.wav", 0, 20⟩ (by simp)⟩

/-- C7: a file is enqueued only when it is unseen and strictly older
than `segment_time + grace` (`transcriber.py:124`), with `grace = 2`,
inside the spec's 1.5-2 s range; a file not old enough (including the
exact boundary) leaves the scanner state completely unchanged — it is
neither enqueued, nor marked seen, nor removed, so later polls retry
it. -/
theorem scanner_eligibility (seg : ℚ) (dr : Bool) (sp : String → Bool)
    (att : Nat → Bool) :
    ((3 / 2 : ℚ) ≤ grace ∧ grace ≤ 2) ∧
    (∀ (st : ScanState) (o : FileObs), ¬ (o.ctime + (seg + grace) < o.now) →
      scanFile seg dr sp att st o = st) ∧
    (∀ (st : ScanState) (o : FileObs),
      (scanFile seg dr sp att st o).queue ≠ st.queue →
      o.file ∉ st.seen ∧ o.ctime + (seg + grace) < o.now) ∧
    (∀ (st : ScanState) (f : String) (c : ℚ),
      scanFile seg dr sp att st ⟨f, c, c + (seg + grace)⟩ = st) := by
  refine ⟨⟨by norm_num [grace], by norm_num [grace]⟩, ?_, ?_, ?_⟩
  · intro st o hyoung
    unfold scanFile
    rw [if_neg]
    rintro ⟨_, hold⟩
    exact hyoung hold
  · intro st o
    unfold scanFile
    split
    case isTrue hc => exact fun _ => hc
    case isFalse => intro hne; exact absurd rfl hne
  · intro st f c
    unfold scanFile
    rw [if_neg]
    rintro ⟨_, hold⟩
    exact absurd hold (lt_irrefl _)

/-- Witness for `scanner_eligibility`: a file checked 5 s after
creation with `segment_time = 10` is not eligible and the state is
unchanged; likewise at the exact boundary. -/
theorem scanner_eligibility_witness :
    scanFile 10 false hasSpeech (fun _ => false) ⟨[], [], []⟩ ⟨"a.wav", 0, 5⟩ =
      ⟨[], [], []⟩ ∧
    scanFile 10 false hasSpeech (fun _ => false) ⟨[], [], []⟩
      ⟨"a.wav", 0, 0 + (10 + grace)⟩ = ⟨[], [], []⟩ :=
  ⟨(scanner_eligibility 10 false hasSpeech (fun _ => false)).2.1
      ⟨[], [], []⟩ ⟨"a.wav", 0, 5⟩ (by norm_num [grace]),
   (scanner_eligibility 10 false hasSpeech (fun _ => false)).2.2.2
      ⟨[], [], []⟩ "a.wav" 0⟩

/-- C8: with deletion enabled, `remove_file`
(`transcriber.py:107-115`) makes up to 10 attempts; if the first 9
raise `PermissionError` and the 10th succeeds, the file is removed
and the call returns normally; if all 10 raise, the call still
returns normally (the function is total: the error is caught inside
the loop) and the file remains on disk. -/
theorem removeFile_retry (att : Nat → Bool) :
    ((∀ i, i < 9 → att i = false) → att 9 = true →
      removeFile true att = true) ∧
    ((∀ i, i < 10 → att i = false) →
      removeFile true att = false ∧
      ∀ (fs : List String) (p : String), removeFileFS true att fs p = fs) := by
  constructor
  · intro h h9
    simp [removeFile, removeAttempts, h 0 (by norm_num), h 1 (by norm_num),
      h 2 (by norm_num), h 3 (by norm_num), h 4 (by norm_num), h 5 (by norm_num),
      h 6 (by norm_num), h 7 (by norm_num), h 8 (by norm_num), h9]
  · intro h
    have hres : removeFile true att = false := by
      simp [removeFile, removeAttempts, h 0 (by norm_num), h 1 (by norm_num),
        h 2 (by norm_num), h 3 (by norm_num), h 4 (by norm_num), h 5 (by norm_num),
        h 6 (by norm_num), h 7 (by norm_num), h 8 (by norm_num), h 9 (by norm_num)]
    exact ⟨hres, fun fs p => by simp [removeFileFS, hres]⟩

/-- Witness for `removeFile_retry`: success exactly on the 10th
attempt removes the file; 10 straight locking errors leave it on
disk. -/
theorem removeFile_retry_witness :
    removeFile true (fun i => decide (i = 9)) = true ∧
    removeFile true (fun _ => false) = false ∧
    removeFileFS true (fun _ => false) ["f.wav"] "f.wav" = ["f.wav"] :=
  ⟨(removeFile_retry (fun i => decide (i = 9))).1 (by decide) (by decide),
   ((removeFile_retry (fun _ => false)).2 (fun _ _ => rfl)).1,
   ((removeFile_retry (fun _ => false)).2 (fun _ _ => rfl)).2 ["f.wav"] "f.wav"⟩

/-- C9: the model worker (`transcriber.py:144-164`) processes its
whole item list no matter which items raise: the final transcript is
the initial one plus exactly one line per item whose recognition and
append succeeded, in order, and an item that raises during
recognition leaves the state untouched. -/
theorem worker_isolation (dr : Bool) (att : Nat → Bool)
    (outcome : String → ItemOutcome) (ctime : String → String) :
    (∀ (items : List String) (st : WorkerState),
      (runWorker dr att outcome ctime st items).transcript
        = st.transcript ++ items.filterMap (itemLine outcome ctime)) ∧
    (∀ (st : WorkerState) (wav msg : String), outcome wav = .recogFail msg →
      workerStep dr att outcome ctime st wav = st) := by
  constructor
  · intro items
    induction items with
    | nil => intro st; simp [runWorker]
    | cons w items ih =>
      intro st
      have hstep : runWorker dr att outcome ctime st (w :: items)
          = runWorker dr att outcome ctime (workerStep dr att outcome ctime st w) items :=
        rfl
      rw [hstep, ih]
      cases houtcome : outcome w <;>
        simp [workerStep, itemLine, houtcome, batchWorkerAppend, List.filterMap_cons]
  · intro st wav msg h
    simp [workerStep, h]

/-- Witness for `worker_isolation`: a failing item between two good
ones is skipped, the two good lines are appended in order. -/
theorem worker_isolation_witness :
    (runWorker false (fun _ => false)
      (fun w => if w = "b.wav" then ItemOutcome.recogFail "err" else ItemOutcome.ok "hi")
      (fun _ => "t") ⟨[], []⟩ ["g.wav", "b.wav", "h.wav"]).transcript
      = ["t hi", "t hi"] ∧
    workerStep false (fun _ => false)
      (fun w => if w = "b.wav" then ItemOutcome.recogFail "err" else ItemOutcome.ok "hi")
      (fun _ => "t") ⟨[], []⟩ "b.wav" = ⟨[], []⟩ :=
  ⟨((worker_isolation false (fun _ => false)
      (fun w => if w = "b.wav" then ItemOutcome.recogFail "err" else ItemOutcome.ok "hi")
      (fun _ => "t")).1 ["g.wav", "b.wav", "h.wav"] ⟨[], []⟩).trans (by decide),
   (worker_isolation false (fun _ => false)
      (fun w => if w = "b.wav" then ItemOutcome.recogFail "err" else ItemOutcome.ok "hi")
      (fun _ => "t")).2 ⟨[], []⟩ "b.wav" "err" (by decide)⟩

/-- The scanner never touches the filesystem when `do_remove` is
false. -/
theorem scanFile_fs_noRemove (seg : ℚ) (sp : String → Bool) (att : Nat → Bool)
    (st : ScanState) (o : FileObs) :
    (scanFile seg false sp att st o).fs = st.fs := by
  unfold scanFile
  split
  · split
    · rfl
    · simp [removeFileFS, removeFile]
  · rfl

/-- The worker never touches the filesystem when `do_remove` is
false. -/
theorem workerStep_fs_noRemove (att : Nat → Bool) (outcome : String → ItemOutcome)
    (ctime : String → String) (st : WorkerState) (wav : String) :
    (workerStep false att outcome ctime st wav).fs = st.fs := by
  cases h : outcome wav <;> simp [workerStep, h, removeFileFS, removeFile]

/-- C10: `TwitchTranscriber.__init__` (`transcriber.py:81`)
hard-codes `do_remove = False` and nothing ever sets it; with
`do_remove` false, `remove_file` returns without touching the
filesystem, so every scanner trace and every worker run leaves the
set of files on disk exactly as it was. -/
theorem pipeline_never_deletes (audioDir : String) (segmentTime : ℚ) :
    (transcriberInit audioDir segmentTime).doRemove = false ∧
    (∀ att : Nat → Bool, removeFile false att = false) ∧
    (∀ (att : Nat → Bool) (fs : List String) (p : String),
      removeFileFS false att fs p = fs) ∧
    (∀ (seg : ℚ) (sp : String → Bool) (att : Nat → Bool) (st : ScanState)
      (obs : List FileObs), (scanTrace seg false sp att st obs).fs = st.fs) ∧
    (∀ (att : Nat → Bool) (outcome : String → ItemOutcome)
      (ctime : String → String) (st : WorkerState) (items : List String),
      (runWorker false att outcome ctime st items).fs = st.fs) := by
  refine ⟨rfl, fun att => by simp [removeFile],
    fun att fs p => by simp [removeFileFS, removeFile], ?_, ?_⟩
  · intro seg sp att st obs
    induction obs generalizing st with
    | nil => rfl
    | cons o obs ih =>
      have hstep : scanTrace seg false sp att st (o :: obs)
          = scanTrace seg false sp att (scanFile seg false sp att st o) obs := rfl
      rw [hstep, ih, scanFile_fs_noRemove]
  · intro att outcome ctime st items
    induction items generalizing st with
    | nil => rfl
    | cons w items ih =>
      have hstep : runWorker false att outcome ctime st (w :: items)
          = runWorker false att outcome ctime
              (workerStep false att outcome ctime st w) items := rfl
      rw [hstep, ih, workerStep_fs_noRemove]

end TwitchCompanion
